import Mathlib

/-!
Verification of the domain core of the CleanArchitectureExample repository:
value objects (Email, Price, OrderId/CustomerId, Currency), the Order and
Customer entities with their state machines, and the typed error taxonomy.

The TypeScript source is shallowly embedded: JavaScript numbers are modelled
as `JSNumber` (a rational together with the non-finite values NaN and the two
infinities); thrown exceptions become `Except Thrown` results; class mutation
becomes explicit state passing where a mutator returns the error (if any)
together with the post-state of the object.
-/

namespace CleanArch

/-- The four members of the `Currency` union type
(src/domain/value-objects/Currency.ts). -/
inductive Currency where
  | USD | EUR | GBP | JPY
deriving DecidableEq, Repr

/-- `VALID_CURRENCIES` from Currency.ts, in source order. -/
def VALID_CURRENCIES : List Currency := [.USD, .EUR, .GBP, .JPY]

/-- String form of a currency, as TypeScript prints the union member. -/
def Currency.toStr : Currency → String
  | .USD => "USD" | .EUR => "EUR" | .GBP => "GBP" | .JPY => "JPY"

/-- A JavaScript number: either a finite value (modelled as a rational) or one
of the non-finite values NaN, +Infinity, -Infinity. -/
inductive JSNumber where
  | finite (q : ℚ)
  | nan
  | posInf
  | negInf
deriving DecidableEq, Repr

/-- `Number.isFinite`. -/
def JSNumber.isFinite : JSNumber → Bool
  | .finite _ => true
  | _ => false

/-- The comparison `x < 0` on a JavaScript number: false for NaN, true only
for finite negatives and -Infinity. -/
def JSNumber.ltZero : JSNumber → Bool
  | .finite q => q < 0
  | .nan => false
  | .posInf => false
  | .negInf => true

/-- `Math.round` on a finite JavaScript number: the nearest integer, with
ties rounded toward positive infinity (round half up). -/
def jsRound (q : ℚ) : ℤ := ⌊q + 1/2⌋

/-- One `{field, message}` record of a `ValidationFailure`
(src/domain/errors/ValidationError.ts).  The optional diagnostic `value`
payload is not modelled: no behaviour in the core reads it. -/
structure VFailure where
  fld : String
  msg : String
deriving DecidableEq, Repr

/-- The five concrete kinds of the domain-error taxonomy
(src/domain/errors): each constructor carries the data its TypeScript
constructor receives. -/
inductive DomainError where
  | validation (entityName : String) (failures : List VFailure)
  | invalidState (entityName : String) (currentState : String)
      (attemptedAction : String) (allowedStates : Option (List String))
  | businessRuleViolation (ruleName : String) (msg : String)
  | notFound (entityName : String) (entityId : String)
  | conflict (entityName : String) (conflictReason : String)
deriving DecidableEq, Repr

/-- The `message` computed by each error constructor, following the string
templates of src/domain/errors verbatim. -/
def DomainError.message : DomainError → String
  | .validation entityName failures =>
      "Validation failed for " ++ entityName ++ ": " ++
        String.intercalate "; " (failures.map (fun f => f.fld ++ ": " ++ f.msg))
  | .invalidState entityName currentState attemptedAction allowedStates =>
      match allowedStates with
      | some allowed =>
          "Cannot " ++ attemptedAction ++ " " ++ entityName ++ " in state \x27"
            ++ currentState ++ "\x27. Allowed states: "
            ++ String.intercalate ", " allowed
      | none =>
          "Cannot " ++ attemptedAction ++ " " ++ entityName ++ " in state \x27"
            ++ currentState ++ "\x27"
  | .businessRuleViolation ruleName msg =>
      "Business rule \x27" ++ ruleName ++ "\x27 violated: " ++ msg
  | .notFound entityName entityId =>
      entityName ++ " with id \x27" ++ entityId ++ "\x27 not found"
  | .conflict entityName conflictReason =>
      entityName ++ " conflict: " ++ conflictReason

/-- A thrown JavaScript exception: either one of the five typed domain
errors, or an untyped `new Error(message)`. -/
inductive Thrown where
  | domain (e : DomainError)
  | generic (msg : String)
deriving DecidableEq, Repr

/-- `ValidationError.single(entityName, field, message)` wrapped as a thrown
exception. -/
def vSingle (entityName fld msg : String) : Thrown :=
  .domain (.validation entityName [⟨fld, msg⟩])

/-- Whether a thrown exception is one of the five taxonomy kinds (as opposed
to an untyped `Error`). -/
def Thrown.isDomainKind : Thrown → Bool
  | .domain _ => true
  | .generic _ => false

/-- `assertCurrency(value)` from Currency.ts: succeeds when the string is one
of the four valid currencies, else throws an untyped `new Error(...)`. -/
def assertCurrency (value : String) : Except Thrown Unit :=
  if (VALID_CURRENCIES.map Currency.toStr).contains value then .ok ()
  else .error (.generic ("Invalid currency: " ++ value
    ++ ". Valid currencies are: "
    ++ String.intercalate ", " (VALID_CURRENCIES.map Currency.toStr)))

/-- The `Price` value object: a (finite, already rounded) amount and a
currency (src/domain/value-objects/Price.ts). -/
structure Price where
  amount : ℚ
  currency : Currency
deriving DecidableEq, Repr

/-- `Price.create(amount, currency)`: throws a ValidationError when the
amount is non-finite or negative, otherwise rounds to two decimals via
`Math.round(amount * 100) / 100`. -/
def Price.create (amount : JSNumber) (currency : Currency) :
    Except Thrown Price :=
  if ¬ amount.isFinite ∨ amount.ltZero then
    .error (vSingle "Price" "amount" "Must be a positive finite number")
  else
    match amount with
    | .finite q => .ok ⟨(jsRound (q * 100) : ℚ) / 100, currency⟩
    | _ => .error (vSingle "Price" "amount" "Must be a positive finite number")

/-- `Price.add(other)`: throws a BusinessRuleViolationError on a currency
mismatch, else builds the sum through `Price.create`. -/
def Price.add (p other : Price) : Except Thrown Price :=
  if p.currency ≠ other.currency then
    .error (.domain (.businessRuleViolation "CurrencyMatch"
      "Cannot add prices with different currencies"))
  else
    Price.create (.finite (p.amount + other.amount)) p.currency

/-- `Price.multiply(quantity)`: throws a ValidationError when the quantity is
not a non-negative integer, else builds the product through `Price.create`.
A finite JavaScript number is an integer exactly when its rational value has
denominator 1. -/
def Price.multiply (p : Price) (quantity : ℚ) : Except Thrown Price :=
  if ¬ (quantity.den = 1) ∨ quantity < 0 then
    .error (vSingle "Price" "quantity" "Must be a positive integer")
  else
    Price.create (.finite (p.amount * quantity)) p.currency

/-- JavaScript `String.prototype.trim`: drop leading and trailing
whitespace. -/
def jsTrim (s : String) : String :=
  ⟨((s.data.dropWhile Char.isWhitespace).reverse.dropWhile
      Char.isWhitespace).reverse⟩

/-- JavaScript `String.prototype.toLowerCase` (on the ASCII range the core
actually handles): lower-case every character. -/
def jsToLowerCase (s : String) : String :=
  ⟨s.data.map Char.toLower⟩

/-- The character class `[^\s@]` of the email pattern: any character that is
neither whitespace nor `@`. -/
def emailChar (c : Char) : Bool := ¬ c.isWhitespace ∧ c ≠ '@'

/-- Matching the regular expression `^[^\s@]+@[^\s@]+\.[^\s@]+$` from
Email.create.  Since `[^\s@]` excludes `@`, a string matches exactly when it
splits as `local @ rest` with a single `@`, every character outside the `@`
drawn from `[^\s@]`, the local part non-empty, and `rest` containing a dot
with at least one character on each side. -/
def emailRegexTest (s : String) : Bool :=
  match (s.toList).splitOn '@' with
  | [locPart, rest] =>
      locPart ≠ [] ∧ locPart.all emailChar ∧
      rest ≠ [] ∧ rest.all emailChar ∧
      ((rest.drop 1).dropLast).contains '.'
  | _ => false

/-- The `Email` value object wrapping the normalized address string. -/
structure Email where
  value : String
deriving DecidableEq, Repr

/-- `Email.create(value)`: trims and lower-cases, throws a ValidationError
when the result is empty or fails the email pattern, else wraps it. -/
def Email.create (value : String) : Except Thrown Email :=
  let trimmed := jsToLowerCase (jsTrim value)
  if trimmed = "" then
    .error (vSingle "Email" "value" "Email cannot be empty")
  else if ¬ emailRegexTest trimmed then
    .error (vSingle "Email" "value" "Invalid email format")
  else
    .ok ⟨trimmed⟩

/-- A hexadecimal digit, case-insensitively (`[0-9a-f]` under the `i` flag). -/
def hexDigit (c : Char) : Bool := c.isDigit ∨ ('a' ≤ c ∧ c ≤ 'f') ∨ ('A' ≤ c ∧ c ≤ 'F')

/-- Matching the UUID v4 pattern
`^[0-9a-f]{8}-[0-9a-f]{4}-4[0-9a-f]{3}-[89ab][0-9a-f]{3}-[0-9a-f]{12}$/i`
from OrderId.create. -/
def uuidV4Test (s : String) : Bool :=
  match (s.toList).splitOn '-' with
  | [a, b, c, d, e] =>
      a.length = 8 ∧ a.all hexDigit ∧
      b.length = 4 ∧ b.all hexDigit ∧
      c.length = 4 ∧ c.all hexDigit ∧ c.head? = some '4' ∧
      d.length = 4 ∧ d.all hexDigit ∧
        (d.head? = some '8' ∨ d.head? = some '9' ∨ d.head? = some 'a' ∨
         d.head? = some 'b' ∨ d.head? = some 'A' ∨ d.head? = some 'B') ∧
      e.length = 12 ∧ e.all hexDigit
  | _ => false

/-- The `OrderId` value object wrapping a validated UUID v4 string. -/
structure OrderId where
  value : String
deriving DecidableEq, Repr

/-- `OrderId.create(value)`: throws a ValidationError on an empty or
non-UUID-v4 string, else wraps it. -/
def OrderId.create (value : String) : Except Thrown OrderId :=
  if value = "" ∨ jsTrim value = "" then
    .error (vSingle "OrderId" "value" "OrderId cannot be empty")
  else if ¬ uuidV4Test value then
    .error (vSingle "OrderId" "value" "Invalid OrderId format (must be UUID v4)")
  else
    .ok ⟨value⟩

/-- The `CustomerId` value object (src Customer entity file). -/
structure CustomerId where
  value : String
deriving DecidableEq, Repr

/-- `CustomerId.create(value)`: throws an untyped `new Error(...)` — not a
taxonomy kind — when the string is empty or whitespace-only, else wraps it. -/
def CustomerId.create (value : String) : Except Thrown CustomerId :=
  if value = "" ∨ jsTrim value = "" then
    .error (.generic "CustomerId cannot be empty")
  else
    .ok ⟨value⟩

/-- The `OrderStatus` union type of the Order entity. -/
inductive OrderStatus where
  | PENDING | CONFIRMED | SHIPPED | DELIVERED | CANCELLED
deriving DecidableEq, Repr

/-- String form of an order status, as the union member prints. -/
def OrderStatus.toStr : OrderStatus → String
  | .PENDING => "PENDING"
  | .CONFIRMED => "CONFIRMED"
  | .SHIPPED => "SHIPPED"
  | .DELIVERED => "DELIVERED"
  | .CANCELLED => "CANCELLED"

/-- The `OrderItem` record of the Order entity.  As in the source, the
quantity is a plain JavaScript number (here: a finite one, modelled as a
rational). -/
structure OrderItem where
  productId : String
  productName : String
  quantity : ℚ
  unitPrice : Price
deriving DecidableEq, Repr

/-- The `Order` entity.  Timestamps are abstracted to a natural number; the
identity is whatever `OrderId.generate()` produced, passed in explicitly as
the environment-supplied random value. -/
structure Order where
  id : OrderId
  customerEmail : Email
  _items : List OrderItem
  _status : OrderStatus
  createdAt : ℕ
deriving DecidableEq, Repr

/-- `Order.create(customerEmail, items)`: a ValidationError on an empty item
list, else a PENDING order over a defensive copy of the list.  The freshly
generated id and the current instant are explicit parameters standing for
`OrderId.generate()` and `new Date()`. -/
def Order.create (generatedId : OrderId) (now : ℕ)
    (customerEmail : Email) (items : List OrderItem) : Except Thrown Order :=
  if items.length = 0 then
    .error (vSingle "Order" "items" "Order must have at least one item")
  else
    .ok ⟨generatedId, customerEmail, items, .PENDING, now⟩

/-- `Order.reconstitute(...)`: rehydration without validation. -/
def Order.reconstitute (id : OrderId) (customerEmail : Email)
    (items : List OrderItem) (status : OrderStatus) (createdAt : ℕ) : Order :=
  ⟨id, customerEmail, items, status, createdAt⟩

/-- The `items` getter (the aliasing of the records it returns is studied
separately in the heap model below). -/
def Order.items (o : Order) : List OrderItem := o._items

/-- The `status` getter. -/
def Order.status (o : Order) : OrderStatus := o._status

/-- The body of the `for` loop in `calculateTotal`: one item's line total
(`unitPrice.multiply(quantity)`) folded into the accumulator by `add`. -/
def totalStep (total : Price) (item : OrderItem) : Except Thrown Price := do
  let itemTotal ← item.unitPrice.multiply item.quantity
  total.add itemTotal

/-- `Order.calculateTotal()`: zero USD on an empty list, else the first
item's `unitPrice.multiply(quantity)` extended by `add` with each later
item's line total, left to right. -/
def Order.calculateTotal (o : Order) : Except Thrown Price :=
  match o._items with
  | [] => Price.create (.finite 0) .USD
  | first :: rest => do
      let init ← first.unitPrice.multiply first.quantity
      rest.foldlM totalStep init

/-- `Order.confirm()`: only from PENDING; the mutator returns the thrown
error (if any) together with the post-state of the object. -/
def Order.confirm (o : Order) : Option Thrown × Order :=
  if o._status ≠ .PENDING then
    (some (.domain (.invalidState "Order" o._status.toStr "confirm"
      (some ["PENDING"]))), o)
  else
    (none, { o with _status := .CONFIRMED })

/-- `Order.ship()`: only from CONFIRMED. -/
def Order.ship (o : Order) : Option Thrown × Order :=
  if o._status ≠ .CONFIRMED then
    (some (.domain (.invalidState "Order" o._status.toStr "ship"
      (some ["CONFIRMED"]))), o)
  else
    (none, { o with _status := .SHIPPED })

/-- `Order.deliver()`: only from SHIPPED. -/
def Order.deliver (o : Order) : Option Thrown × Order :=
  if o._status ≠ .SHIPPED then
    (some (.domain (.invalidState "Order" o._status.toStr "deliver"
      (some ["SHIPPED"]))), o)
  else
    (none, { o with _status := .DELIVERED })

/-- `Order.cancel()`: blocked from DELIVERED (with an allowed-states hint)
and from CANCELLED (without one), else moves to CANCELLED. -/
def Order.cancel (o : Order) : Option Thrown × Order :=
  if o._status = .DELIVERED then
    (some (.domain (.invalidState "Order" o._status.toStr "cancel"
      (some ["PENDING", "CONFIRMED", "SHIPPED"]))), o)
  else if o._status = .CANCELLED then
    (some (.domain (.invalidState "Order" o._status.toStr "cancel" none)), o)
  else
    (none, { o with _status := .CANCELLED })

/-- `Order.addItem(item)`: only while PENDING; merges into the first line
with the same productId by incrementing its quantity (`findIndex` then
`quantity += ...`), else pushes the item at the end. -/
def Order.addItem (o : Order) (item : OrderItem) : Option Thrown × Order :=
  if o._status ≠ .PENDING then
    (some (.domain (.invalidState "Order" o._status.toStr "add items"
      (some ["PENDING"]))), o)
  else
    match o._items.findIdx? (fun i => i.productId == item.productId) with
    | some idx =>
        let merged := List.modify
          (fun ex => { ex with quantity := ex.quantity + item.quantity })
          idx o._items
        (none, { o with _items := merged })
    | none =>
        (none, { o with _items := o._items ++ [item] })

/-- The `Customer` entity. -/
structure Customer where
  id : CustomerId
  _name : String
  _email : Email
  _isActive : Bool
  createdAt : ℕ
deriving DecidableEq, Repr

/-- `Customer.create(name, email)`: a ValidationError on an empty or
whitespace-only name, else an active customer with the trimmed name.  The
generated id and the current instant are explicit parameters. -/
def Customer.create (generatedId : CustomerId) (now : ℕ)
    (name : String) (email : Email) : Except Thrown Customer :=
  if name = "" ∨ jsTrim name = "" then
    .error (vSingle "Customer" "name" "Customer name cannot be empty")
  else
    .ok ⟨generatedId, jsTrim name, email, true, now⟩

/-- `Customer.reconstitute(...)`. -/
def Customer.reconstitute (id : CustomerId) (name : String) (email : Email)
    (isActive : Bool) (createdAt : ℕ) : Customer :=
  ⟨id, name, email, isActive, createdAt⟩

/-- `Customer.updateName(newName)`: ValidationError on empty/whitespace-only,
else store the trimmed name. -/
def Customer.updateName (c : Customer) (newName : String) :
    Option Thrown × Customer :=
  if newName = "" ∨ jsTrim newName = "" then
    (some (vSingle "Customer" "name" "Customer name cannot be empty"), c)
  else
    (none, { c with _name := jsTrim newName })

/-- `Customer.updateEmail(newEmail)`: unconditional replacement. -/
def Customer.updateEmail (c : Customer) (newEmail : Email) :
    Option Thrown × Customer :=
  (none, { c with _email := newEmail })

/-- `Customer.deactivate()`: only while active. -/
def Customer.deactivate (c : Customer) : Option Thrown × Customer :=
  if ¬ c._isActive then
    (some (.domain (.invalidState "Customer" "inactive" "deactivate" none)), c)
  else
    (none, { c with _isActive := false })

/-- `Customer.activate()`: only while inactive. -/
def Customer.activate (c : Customer) : Option Thrown × Customer :=
  if c._isActive then
    (some (.domain (.invalidState "Customer" "active" "activate" none)), c)
  else
    (none, { c with _isActive := true })

/-- One call against an Order, for reasoning about call sequences. -/
inductive OrderAction where
  | confirm | ship | deliver | cancel
  | addItem (item : OrderItem)
deriving DecidableEq, Repr

/-- Dispatch one call on an Order. -/
def Order.applyAction (o : Order) : OrderAction → Option Thrown × Order
  | .confirm => o.confirm
  | .ship => o.ship
  | .deliver => o.deliver
  | .cancel => o.cancel
  | .addItem item => o.addItem item

/-- Run a sequence of calls, each acting on the object the previous one left
behind (a thrown call leaves the object as it was). -/
def Order.runActions (o : Order) (actions : List OrderAction) : Order :=
  actions.foldl (fun st a => (st.applyAction a).2) o

/-- One call against a Customer. -/
inductive CustomerAction where
  | activate | deactivate
  | updateName (newName : String)
  | updateEmail (newEmail : Email)
deriving DecidableEq, Repr

/-- Dispatch one call on a Customer. -/
def Customer.applyAction (c : Customer) : CustomerAction → Option Thrown × Customer
  | .activate => c.activate
  | .deactivate => c.deactivate
  | .updateName n => c.updateName n
  | .updateEmail e => c.updateEmail e

/-- The documented Order invariant: a non-empty item list in which each
productId appears at most once. -/
def Order.invariantHolds (o : Order) : Prop :=
  o._items ≠ [] ∧ (o._items.map OrderItem.productId).Nodup

/-!
A heap view of the Order aggregate, for the aliasing questions around the
defensive copies: in JavaScript, `[...array]` copies the array object but
the `OrderItem` objects inside remain shared references.  Arrays and item
objects live in explicit stores and are passed by reference.
-/
namespace HeapModel

/-- An `OrderItem` object as it sits on the JavaScript heap. -/
structure ItemRecord where
  productId : String
  productName : String
  quantity : ℚ
  unitPrice : Price
deriving DecidableEq, Repr

/-- A reference to an item object. -/
abbrev ItemRef := ℕ

/-- A reference to an array object. -/
abbrev ArrRef := ℕ

/-- The slice of the JavaScript heap the aggregate touches: a store of item
objects and a store of arrays holding references to them. -/
structure JSHeap where
  itemAt : ItemRef → ItemRecord
  arrAt : ArrRef → List ItemRef
  nextArr : ArrRef

/-- Allocate a fresh array object holding the given references (the heap
effect of a spread `[...xs]`). -/
def JSHeap.allocArr (h : JSHeap) (refs : List ItemRef) : JSHeap × ArrRef :=
  (⟨h.itemAt, fun r => if r = h.nextArr then refs else h.arrAt r,
    h.nextArr + 1⟩, h.nextArr)

/-- A caller assigning through an item reference (`obj.quantity = ...`):
replace the record the reference points at. -/
def JSHeap.setItem (h : JSHeap) (r : ItemRef) (v : ItemRecord) : JSHeap :=
  ⟨fun r2 => if r2 = r then v else h.itemAt r2, h.arrAt, h.nextArr⟩

/-- A caller structurally mutating an array object it can reach (push,
splice, index assignment): replace its contents. -/
def JSHeap.setArr (h : JSHeap) (r : ArrRef) (refs : List ItemRef) : JSHeap :=
  ⟨h.itemAt, fun r2 => if r2 = r then refs else h.arrAt r2, h.nextArr⟩

/-- The Order entity, with its private `_items` array held by reference. -/
structure HOrder where
  id : OrderId
  customerEmail : Email
  itemsArr : ArrRef
  status : OrderStatus
  createdAt : ℕ

/-- `Order.create` on the heap: the caller passes its items array by
reference; the factory validates non-emptiness and keeps `[...items]`, a
fresh array sharing the item references. -/
def HOrder.create (h : JSHeap) (generatedId : OrderId) (now : ℕ)
    (customerEmail : Email) (argArr : ArrRef) :
    Except Thrown (JSHeap × HOrder) :=
  if (h.arrAt argArr).length = 0 then
    .error (vSingle "Order" "items" "Order must have at least one item")
  else
    let (h1, copyRef) := h.allocArr (h.arrAt argArr)
    .ok (h1, ⟨generatedId, customerEmail, copyRef, .PENDING, now⟩)

/-- The `items` getter on the heap: returns `[...this._items]`, a fresh
array sharing the item references. -/
def HOrder.itemsGet (h : JSHeap) (o : HOrder) : JSHeap × ArrRef :=
  h.allocArr (h.arrAt o.itemsArr)

/-- The Order's internal state as observed through its private array: the
item records its references point at, in order. -/
def HOrder.observedItems (h : JSHeap) (o : HOrder) : List ItemRecord :=
  (h.arrAt o.itemsArr).map h.itemAt

end HeapModel

/-! Concrete fixtures used by witnesses and counterexamples. -/

/-- A fixed valid email value. -/
def sampleEmail : Email := ⟨"a@b.c"⟩

/-- A fixed UUID-v4 order id, standing for a `generate()` output. -/
def sampleId : OrderId := ⟨"11111111-1111-4111-8111-111111111111"⟩

/-- The two items of the spec's worked total example:
qty 2 @ 10 EUR and qty 1 @ 20 EUR. -/
def sampleItems2 : List OrderItem :=
  [⟨"p1", "A", 2, ⟨10, .EUR⟩⟩, ⟨"p2", "B", 1, ⟨20, .EUR⟩⟩]

/-- An order over `sampleItems2` in a chosen status. -/
def sampleOrder (st : OrderStatus) : Order :=
  ⟨sampleId, sampleEmail, sampleItems2, st, 0⟩

/-- An item sharing `sampleItems2`'s first productId, quantity 3, for the
duplicate-merge example. -/
def addSame : OrderItem := ⟨"p1", "A", 3, ⟨10, .EUR⟩⟩

/-- Two distinct items sharing one productId. -/
def dupItems : List OrderItem :=
  [⟨"p", "A", 1, ⟨10, .EUR⟩⟩, ⟨"p", "B", 1, ⟨10, .EUR⟩⟩]

/-- The order `Order.create` builds from `dupItems`. -/
def dupOrder : Order := ⟨sampleId, sampleEmail, dupItems, .PENDING, 0⟩

/-- A heap with one item object (at reference 0) and one array `[0]` (at
array reference 0). -/
def hp0 : HeapModel.JSHeap :=
  ⟨fun _ => ⟨"p1", "A", 2, ⟨10, .EUR⟩⟩, fun r => if r = 0 then [0] else [], 1⟩

/-- The record a caller writes over the shared item object: same line, its
quantity forced to 99. -/
def mutRecord : HeapModel.ItemRecord := ⟨"p1", "A", 99, ⟨10, .EUR⟩⟩

/-- An order whose private array is the one at array reference 0 of `hp0`. -/
def hOrder0 : HeapModel.HOrder := ⟨sampleId, sampleEmail, 0, .PENDING, 0⟩

/-- An item as the data model describes it: an integral non-negative
quantity, and a unit price whose amount satisfies the Price invariant
(non-negative; every Price the factory builds satisfies it). -/
def validItem (it : OrderItem) : Prop :=
  it.quantity.den = 1 ∧ 0 ≤ it.quantity ∧ 0 ≤ it.unitPrice.amount

/-- An order holding no items at all (reachable only via reconstitute). -/
def emptyOrder : Order := Order.reconstitute sampleId sampleEmail [] .PENDING 0

/-- The mixed-currency BusinessRuleViolationError `Price.add` throws. -/
def currencyMismatchError : Thrown :=
  .domain (.businessRuleViolation "CurrencyMatch"
    "Cannot add prices with different currencies")

/-- The order cancel() on a DELIVERED order reports. -/
def deliveredCancelError : DomainError :=
  .invalidState "Order" "DELIVERED" "cancel"
    (some ["PENDING", "CONFIRMED", "SHIPPED"])

/-- The order cancel() on a CANCELLED order reports. -/
def cancelledCancelError : DomainError :=
  .invalidState "Order" "CANCELLED" "cancel" none

end CleanArch

deriving instance DecidableEq for Except

namespace CleanArch

/-- C1: for every Order, confirm succeeds exactly from PENDING (moving to
CONFIRMED), ship exactly from CONFIRMED (to SHIPPED), deliver exactly from
SHIPPED (to DELIVERED), cancel exactly from PENDING/CONFIRMED/SHIPPED (to
CANCELLED); every other (state, action) pair fails with an InvalidStateError
carrying the current state, the action name and the allowed-states list of
the transition table (none for cancel on CANCELLED). -/
theorem order_state_machine (o : Order) :
    (o.status = .PENDING → o.confirm = (none, { o with _status := .CONFIRMED })) ∧
    (o.status ≠ .PENDING → o.confirm = (some (.domain (.invalidState "Order"
      o.status.toStr "confirm" (some ["PENDING"]))), o)) ∧
    (o.status = .CONFIRMED → o.ship = (none, { o with _status := .SHIPPED })) ∧
    (o.status ≠ .CONFIRMED → o.ship = (some (.domain (.invalidState "Order"
      o.status.toStr "ship" (some ["CONFIRMED"]))), o)) ∧
    (o.status = .SHIPPED → o.deliver = (none, { o with _status := .DELIVERED })) ∧
    (o.status ≠ .SHIPPED → o.deliver = (some (.domain (.invalidState "Order"
      o.status.toStr "deliver" (some ["SHIPPED"]))), o)) ∧
    (o.status = .PENDING ∨ o.status = .CONFIRMED ∨ o.status = .SHIPPED →
      o.cancel = (none, { o with _status := .CANCELLED })) ∧
    (o.status = .DELIVERED → o.cancel = (some (.domain (.invalidState "Order"
      o.status.toStr "cancel" (some ["PENDING", "CONFIRMED", "SHIPPED"]))), o)) ∧
    (o.status = .CANCELLED → o.cancel = (some (.domain (.invalidState "Order"
      o.status.toStr "cancel" none)), o)) := by
  obtain ⟨id, em, its, st, ca⟩ := o
  cases st <;>
    simp [Order.status, Order.confirm, Order.ship, Order.deliver,
      Order.cancel, OrderStatus.toStr]

/-- Witness for C1: the PENDING→confirm→CONFIRMED transition on a concrete
order, through `order_state_machine`. -/
theorem order_state_machine_witness :
    (sampleOrder .PENDING).status = .PENDING ∧
    (sampleOrder .PENDING).confirm =
      (none, { sampleOrder .PENDING with _status := .CONFIRMED }) :=
  ⟨by decide, (order_state_machine (sampleOrder .PENDING)).1 (by decide)⟩

/-- C10: every Order mutator (confirm, ship, deliver, cancel, addItem) and
every Customer mutator (activate, deactivate, updateName, updateEmail)
leaves the entity exactly as it was whenever the call throws. -/
theorem mutators_atomic_on_error :
    (∀ (o : Order) (a : OrderAction),
      (o.applyAction a).1.isSome → (o.applyAction a).2 = o) ∧
    (∀ (c : Customer) (a : CustomerAction),
      (c.applyAction a).1.isSome → (c.applyAction a).2 = c) := by
  constructor
  · intro o a
    cases a <;>
      simp only [Order.applyAction, Order.confirm, Order.ship, Order.deliver,
        Order.cancel, Order.addItem] <;>
      split <;> simp_all <;> split <;> simp_all
  · intro c a
    cases a <;>
      simp only [Customer.applyAction, Customer.activate, Customer.deactivate,
        Customer.updateName, Customer.updateEmail] <;>
      first
        | (split <;> simp_all)
        | simp

/-- C2: `addItem` fails with an InvalidStateError hinting `[PENDING]` unless
the order is PENDING; while PENDING, if `findIndex` locates a line with the
new item's productId, that line alone has its quantity incremented — unit
price and the rest of the record retained, item count unchanged — and
otherwise the new item is appended at the end, preserving insertion order. -/
theorem addItem_spec (o : Order) (item : OrderItem) :
    (o.status ≠ .PENDING → o.addItem item = (some (.domain (.invalidState "Order"
      o.status.toStr "add items" (some ["PENDING"]))), o)) ∧
    (o.status = .PENDING →
      ∀ idx, o._items.findIdx? (fun i => i.productId == item.productId) = some idx →
      ∀ hlt : idx < o._items.length,
        (o.addItem item).1 = none ∧
        (o.addItem item).2._items = o._items.set idx
          { o._items[idx] with quantity := o._items[idx].quantity + item.quantity } ∧
        (o.addItem item).2._items.length = o._items.length) ∧
    (o.status = .PENDING →
      o._items.findIdx? (fun i => i.productId == item.productId) = none →
      o.addItem item = (none, { o with _items := o._items ++ [item] })) := by
  obtain ⟨id, em, its, st, ca⟩ := o
  refine ⟨?_, ?_, ?_⟩
  · intro h
    simp only [Order.status] at h
    simp [Order.addItem, Order.status, h]
  · intro hst idx hfind hlt
    simp only [Order.status] at hst
    subst hst
    simp only [Order.addItem, ne_eq, not_true_eq_false, if_false, hfind,
      List.length_set, and_true]
    rw [List.modify_eq_set_get _ hlt]
    simp
  · intro hst hnone
    simp only [Order.status] at hst
    subst hst
    simp [Order.addItem, hnone]

/-- Witness for C2: adding quantity 3 of the already-present product "p1"
(existing quantity 2) merges into line 0 without growing the item count,
through `addItem_spec`. -/
theorem addItem_spec_witness :
    (sampleOrder .PENDING).status = .PENDING ∧
    ((sampleOrder .PENDING)._items.findIdx?
        (fun i => i.productId == addSame.productId) = some 0) ∧
    (((sampleOrder .PENDING).addItem addSame).1 = none ∧
      ((sampleOrder .PENDING).addItem addSame).2._items =
        (sampleOrder .PENDING)._items.set 0
          { (sampleOrder .PENDING)._items[0] with
            quantity := (sampleOrder .PENDING)._items[0].quantity + addSame.quantity } ∧
      ((sampleOrder .PENDING).addItem addSame).2._items.length =
        (sampleOrder .PENDING)._items.length) :=
  ⟨by decide, by decide,
    (addItem_spec (sampleOrder .PENDING) addSame).2.1 (by decide) 0 (by decide)
      (by decide)⟩

/-- C4 (evidence against the claim): two factories escape the taxonomy —
`CustomerId.create` on an empty string and `assertCurrency` on an unknown
code each throw an untyped `new Error(...)`, not one of the five kinds. -/
theorem untyped_error_escapes :
    CustomerId.create "" = .error (.generic "CustomerId cannot be empty") ∧
    assertCurrency "XXX" = .error (.generic
      "Invalid currency: XXX. Valid currencies are: USD, EUR, GBP, JPY") ∧
    (Thrown.generic "CustomerId cannot be empty").isDomainKind = false ∧
    (Thrown.generic
      "Invalid currency: XXX. Valid currencies are: USD, EUR, GBP, JPY").isDomainKind
      = false := by
  refine ⟨by decide, by decide, by decide, by decide⟩

/-- C8: the InvalidStateError from cancel() on a DELIVERED order carries the
hint [PENDING, CONFIRMED, SHIPPED] and its message ends in an
". Allowed states: ..." clause, while the one from cancel() on a CANCELLED
order carries no hint and its message has no such clause. -/
theorem cancel_hint_asymmetry (o : Order) :
    (o.status = .DELIVERED →
      (o.cancel).1 = some (.domain deliveredCancelError) ∧
      deliveredCancelError.message =
        "Cannot cancel Order in state \x27DELIVERED\x27. Allowed states: PENDING, CONFIRMED, SHIPPED" ∧
      (". Allowed states: ").toList <:+: deliveredCancelError.message.toList) ∧
    (o.status = .CANCELLED →
      (o.cancel).1 = some (.domain cancelledCancelError) ∧
      cancelledCancelError.message = "Cannot cancel Order in state \x27CANCELLED\x27" ∧
      ¬ (". Allowed states: ").toList <:+: cancelledCancelError.message.toList) := by
  obtain ⟨id, em, its, st, ca⟩ := o
  cases st <;>
    refine ⟨fun h => ?_, fun h => ?_⟩ <;>
    first
      | exact ⟨rfl, by decide, by decide⟩
      | simp [Order.status] at h

/-- Witness for C8: both cancel branches at concrete DELIVERED and CANCELLED
orders, through `cancel_hint_asymmetry`. -/
theorem cancel_hint_asymmetry_witness :
    (((sampleOrder .DELIVERED).cancel).1 = some (.domain deliveredCancelError) ∧
      deliveredCancelError.message =
        "Cannot cancel Order in state \x27DELIVERED\x27. Allowed states: PENDING, CONFIRMED, SHIPPED" ∧
      (". Allowed states: ").toList <:+: deliveredCancelError.message.toList) ∧
    (((sampleOrder .CANCELLED).cancel).1 = some (.domain cancelledCancelError) ∧
      cancelledCancelError.message = "Cannot cancel Order in state \x27CANCELLED\x27" ∧
      ¬ (". Allowed states: ").toList <:+: cancelledCancelError.message.toList) :=
  ⟨(cancel_hint_asymmetry (sampleOrder .DELIVERED)).1 (by decide),
   (cancel_hint_asymmetry (sampleOrder .CANCELLED)).2 (by decide)⟩

/-- C9: Email.create normalizes by trim + lower-case (so
`'  User@Example.COM  '` yields `'user@example.com'`), fails exactly when
the normalized string is empty or misses the pattern (local part, `@`, a
dot-separated label after it), always with a ValidationError; the four
malformed examples all fail. -/
theorem email_create_spec :
    Email.create "  User@Example.COM  " = .ok ⟨"user@example.com"⟩ ∧
    (∀ s, (∃ e, Email.create s = .error e) ↔
      (jsToLowerCase (jsTrim s) = "" ∨
        emailRegexTest (jsToLowerCase (jsTrim s)) = false)) ∧
    (∀ s e, Email.create s = .error e →
      ∃ fs, e = .domain (.validation "Email" fs)) ∧
    Email.create "no-at-sign" = .error (vSingle "Email" "value" "Invalid email format") ∧
    Email.create "user@" = .error (vSingle "Email" "value" "Invalid email format") ∧
    Email.create "@example.com" = .error (vSingle "Email" "value" "Invalid email format") ∧
    Email.create "user@example" = .error (vSingle "Email" "value" "Invalid email format") := by
  refine ⟨by decide, ?_, ?_, by decide, by decide, by decide, by decide⟩
  · intro s
    constructor
    · rintro ⟨e, he⟩
      by_cases h1 : jsToLowerCase (jsTrim s) = ""
      · exact .inl h1
      · by_cases h2 : emailRegexTest (jsToLowerCase (jsTrim s)) = true
        · exfalso
          simp only [Email.create, if_neg h1, h2, not_true_eq_false,
            if_false] at he
          exact Except.noConfusion he
        · exact .inr (Bool.not_eq_true _ ▸ h2)
    · intro h
      rcases h with h1 | h2
      · exact ⟨vSingle "Email" "value" "Email cannot be empty",
          by simp only [Email.create, if_pos h1]⟩
      · by_cases h1 : jsToLowerCase (jsTrim s) = ""
        · exact ⟨vSingle "Email" "value" "Email cannot be empty",
            by simp only [Email.create, if_pos h1]⟩
        · refine ⟨vSingle "Email" "value" "Invalid email format", ?_⟩
          simp only [Email.create, if_neg h1, h2, Bool.false_eq_true,
            not_false_eq_true, if_true]
  · intro s e he
    by_cases h1 : jsToLowerCase (jsTrim s) = ""
    · simp only [Email.create, if_pos h1] at he
      cases he
      exact ⟨_, rfl⟩
    · by_cases h2 : emailRegexTest (jsToLowerCase (jsTrim s)) = true
      · simp only [Email.create, if_neg h1, h2, not_true_eq_false,
          if_false] at he
        exact Except.noConfusion he
      · simp only [Email.create, if_neg h1, Bool.not_eq_true _ ▸ h2,
          Bool.false_eq_true, not_false_eq_true, if_true] at he
        cases he
        exact ⟨_, rfl⟩

/-- Witness for C9: the empty input fails and the thrown error is a
ValidationError for entity Email, through `email_create_spec`. -/
theorem email_create_spec_witness :
    Email.create "" = .error (vSingle "Email" "value" "Email cannot be empty") ∧
    ∃ fs, (vSingle "Email" "value" "Email cannot be empty") =
      .domain (.validation "Email" fs) :=
  ⟨by decide, email_create_spec.2.2.1 "" _ (by decide)⟩

/-- `Math.round` never rounds a non-negative value below zero. -/
theorem jsRound_nonneg (q : ℚ) (h : 0 ≤ q) : 0 ≤ jsRound q := by
  unfold jsRound
  rw [Int.le_floor]
  push_cast
  linarith

/-- `Math.round` is the identity on integers. -/
theorem jsRound_intCast (z : ℤ) : jsRound (z : ℚ) = z := by
  unfold jsRound
  rw [add_comm, Int.floor_add_int]
  norm_num

/-- On a non-negative finite amount, `Price.create` succeeds and stores the
two-decimal rounding. -/
theorem price_create_finite_nonneg (q : ℚ) (hq : 0 ≤ q) (c : Currency) :
    Price.create (.finite q) c = .ok ⟨(jsRound (q * 100) : ℚ) / 100, c⟩ := by
  unfold Price.create
  rw [if_neg]
  rintro (hfin | hlt)
  · exact hfin rfl
  · exact absurd (of_decide_eq_true hlt) (not_lt.mpr hq)

/-- The amount `Price.create` stores is non-negative when the input is. -/
theorem price_create_amount_nonneg (q : ℚ) (hq : 0 ≤ q) :
    0 ≤ (jsRound (q * 100) : ℚ) / 100 := by
  apply div_nonneg _ (by norm_num)
  exact_mod_cast jsRound_nonneg _ (by positivity)

/-- `Price.create` on a whole-number amount stores it unchanged. -/
theorem price_create_natCast (m : ℕ) (c : Currency) :
    Price.create (.finite (m : ℚ)) c = .ok ⟨(m : ℚ), c⟩ := by
  rw [price_create_finite_nonneg _ (by positivity)]
  have h1 : ((m : ℚ)) * 100 = ((m * 100 : ℤ) : ℚ) := by push_cast; ring
  rw [h1, jsRound_intCast]
  have h2 : (((m * 100 : ℤ) : ℚ)) / 100 = (m : ℚ) := by push_cast; ring
  rw [h2]

/-- C7: Price.create fails with a ValidationError exactly when the amount is
non-finite or negative; on a valid amount it stores
`Math.round(amount*100)/100`, a value with at most two decimal digits, and
exact half-cent amounts round upward (round half up). -/
theorem price_create_spec :
    (∀ (x : JSNumber) (c : Currency),
      (∃ e, Price.create x c = .error e) ↔ (¬ x.isFinite = true ∨ x.ltZero = true)) ∧
    (∀ (x : JSNumber) (c : Currency), (¬ x.isFinite = true ∨ x.ltZero = true) →
      Price.create x c =
        .error (vSingle "Price" "amount" "Must be a positive finite number")) ∧
    (∀ (q : ℚ) (c : Currency), 0 ≤ q →
      Price.create (.finite q) c = .ok ⟨(jsRound (q * 100) : ℚ) / 100, c⟩ ∧
      (((jsRound (q * 100) : ℚ) / 100) * 100).den = 1) ∧
    (∀ (n : ℕ) (c : Currency),
      Price.create (.finite ((n : ℚ) / 100 + 1 / 200)) c =
        .ok ⟨((n : ℚ) + 1) / 100, c⟩) := by
  refine ⟨?_, ?_, ?_, ?_⟩
  · intro x c
    cases x with
    | finite q =>
        by_cases hq : q < 0
        · constructor
          · intro _
            right
            simpa [JSNumber.ltZero] using hq
          · intro _
            refine ⟨vSingle "Price" "amount" "Must be a positive finite number", ?_⟩
            unfold Price.create
            rw [if_pos]
            right
            simpa [JSNumber.ltZero] using hq
        · constructor
          · rintro ⟨e, he⟩
            rw [price_create_finite_nonneg q (not_lt.mp hq) c] at he
            exact Except.noConfusion he
          · rintro (hfin | hlt)
            · exact absurd rfl hfin
            · exact absurd (of_decide_eq_true hlt) hq
    | nan => exact ⟨fun _ => .inl (by simp [JSNumber.isFinite]), fun _ => ⟨_, rfl⟩⟩
    | posInf => exact ⟨fun _ => .inl (by simp [JSNumber.isFinite]), fun _ => ⟨_, rfl⟩⟩
    | negInf => exact ⟨fun _ => .inl (by simp [JSNumber.isFinite]), fun _ => ⟨_, rfl⟩⟩
  · intro x c h
    unfold Price.create
    rw [if_pos h]
  · intro q c hq
    refine ⟨price_create_finite_nonneg q hq c, ?_⟩
    have h1 : ((jsRound (q * 100) : ℚ) / 100) * 100 = (jsRound (q * 100) : ℚ) := by
      field_simp
    rw [h1]
    exact Rat.den_intCast _
  · intro n c
    rw [price_create_finite_nonneg _ (by positivity)]
    have h1 : ((n : ℚ) / 100 + 1 / 200) * 100 + 1 / 2 = (((n : ℤ) + 1 : ℤ) : ℚ) := by
      push_cast
      ring
    have h2 : jsRound (((n : ℚ) / 100 + 1 / 200) * 100) = (n : ℤ) + 1 := by
      unfold jsRound
      rw [h1, Int.floor_intCast]
    rw [h2]
    have h3 : (((n : ℤ) + 1 : ℤ) : ℚ) / 100 = ((n : ℚ) + 1) / 100 := by
      push_cast
      ring
    rw [h3]

/-- Witness for C7: the valid amount 1 is stored with at most two decimals,
through `price_create_spec`. -/
theorem price_create_spec_witness :
    0 ≤ (1 : ℚ) ∧
    (Price.create (.finite 1) .EUR = .ok ⟨(jsRound (1 * 100) : ℚ) / 100, .EUR⟩ ∧
      (((jsRound (1 * 100) : ℚ) / 100) * 100).den = 1) :=
  ⟨by decide, price_create_spec.2.2.1 1 .EUR (by decide)⟩

/-- A list is unchanged by writing back an element it already holds. -/
theorem set_get?_self {β : Type _} : ∀ (l : List β) (n : ℕ) (x : β),
    l.get? n = some x → l.set n x = l
  | [], _, _, h => by simp at h
  | a :: l, 0, x, h => by
      simp only [List.get?_cons_zero, Option.some.injEq] at h
      simp [h]
  | a :: l, n+1, x, h => by
      simp only [List.get?_cons_succ] at h
      simp [set_get?_self l n x h]

/-- Mapping `p` over a list ignores a `modify` whose function fixes `p`. -/
theorem map_modify_fixes {α β : Type _} (g : α → α) (p : α → β)
    (hp : ∀ x, p (g x) = p x) (n : ℕ) (l : List α) :
    (List.modify g n l).map p = l.map p := by
  rw [List.modify_eq_set_get?]
  cases h : l.get? n with
  | none => simp [h]
  | some x =>
      show (l.set n (g x)).map p = l.map p
      rw [List.map_set, hp]
      apply set_get?_self
      rw [List.get?_map, h, Option.map_some']

/-- `modify` never changes the length of a list. -/
theorem length_modify_eq {α : Type _} (g : α → α) (n : ℕ) (l : List α) :
    (List.modify g n l).length = l.length := by
  rw [List.modify_eq_set_get?]
  cases h : l.get? n with
  | none => simp [h]
  | some x =>
      show (l.set n (g x)).length = l.length
      exact List.length_set l n (g x)

/-- Every single Order call preserves the documented invariant. -/
theorem applyAction_preserves_invariant (o : Order) (a : OrderAction)
    (h : o.invariantHolds) : ((o.applyAction a).2).invariantHolds := by
  obtain ⟨hne, hnodup⟩ := h
  cases a with
  | confirm =>
      simp only [Order.applyAction, Order.confirm]
      split <;> exact ⟨hne, hnodup⟩
  | ship =>
      simp only [Order.applyAction, Order.ship]
      split <;> exact ⟨hne, hnodup⟩
  | deliver =>
      simp only [Order.applyAction, Order.deliver]
      split <;> exact ⟨hne, hnodup⟩
  | cancel =>
      simp only [Order.applyAction, Order.cancel]
      split
      · exact ⟨hne, hnodup⟩
      · split <;> exact ⟨hne, hnodup⟩
  | addItem item =>
      by_cases hst : o._status ≠ OrderStatus.PENDING
      · simp only [Order.applyAction, Order.addItem, if_pos hst]
        exact ⟨hne, hnodup⟩
      · simp only [Order.applyAction, Order.addItem, if_neg hst]
        cases hfind : o._items.findIdx? (fun i => i.productId == item.productId) with
        | some idx =>
            simp only [hfind]
            refine ⟨?_, ?_⟩
            · intro hnil
              apply hne
              have hlen := length_modify_eq
                (fun ex => { ex with quantity := ex.quantity + item.quantity })
                idx o._items
              have hnil2 : List.modify
                  (fun ex => { ex with quantity := ex.quantity + item.quantity })
                  idx o._items = [] := hnil
              rw [hnil2] at hlen
              exact List.length_eq_zero.mp hlen.symm
            · show ((List.modify
                  (fun ex => { ex with quantity := ex.quantity + item.quantity })
                  idx o._items).map OrderItem.productId).Nodup
              rw [map_modify_fixes
                (fun ex => { ex with quantity := ex.quantity + item.quantity })
                OrderItem.productId (fun x => rfl) idx o._items]
              exact hnodup
        | none =>
            simp only [hfind]
            refine ⟨?_, ?_⟩
            · show o._items ++ [item] ≠ []
              simp
            show ((o._items ++ [item]).map OrderItem.productId).Nodup
            rw [List.map_append]
            have hnotmem : item.productId ∉ o._items.map OrderItem.productId := by
              rw [List.findIdx?_eq_none_iff] at hfind
              intro hmem
              obtain ⟨x, hx, hpx⟩ := List.mem_map.mp hmem
              have hfx := hfind x hx
              rw [hpx] at hfx
              simp at hfx
            rw [List.nodup_append]
            exact ⟨hnodup, List.nodup_singleton _, by
              intro y hy hmem
              exact hnotmem ((List.mem_singleton.mp hmem) ▸ hy)⟩

/-- Running a sequence of calls preserves the Order invariant. -/
theorem runActions_preserves_invariant (actions : List OrderAction) :
    ∀ o : Order, o.invariantHolds → (o.runActions actions).invariantHolds := by
  induction actions with
  | nil => intro o h; exact h
  | cons a rest ih =>
      intro o h
      show ((o.applyAction a).2.runActions rest).invariantHolds
      exact ih _ (applyAction_preserves_invariant o a h)

/-- C6 counterexample: `Order.create` checks only non-emptiness, so a list
whose two items share a productId yields an Order (after zero further calls)
violating the at-most-once invariant. -/
theorem order_invariant_claim_cex :
    Order.create sampleId 0 sampleEmail dupItems = .ok dupOrder ∧
    Order.runActions dupOrder [] = dupOrder ∧
    ¬ dupOrder.invariantHolds := by
  refine ⟨by decide, rfl, ?_⟩
  intro hinv
  have hnodup := hinv.2
  simp [dupOrder, dupItems, OrderItem.productId] at hnodup

/-- C6 amended: when the initial item list's productIds are pairwise
distinct, every Order obtained from `Order.create` keeps the invariant —
non-empty items, each productId at most once — across any sequence of calls. -/
theorem order_invariant_preserved (gid : OrderId) (now : ℕ) (em : Email)
    (items : List OrderItem) (hnodup : (items.map OrderItem.productId).Nodup)
    (o : Order) (hco : Order.create gid now em items = .ok o)
    (actions : List OrderAction) :
    (o.runActions actions).invariantHolds := by
  apply runActions_preserves_invariant
  unfold Order.create at hco
  split at hco
  · exact absurd hco (by simp)
  · rename_i hlen
    have ho : o = ⟨gid, em, items, .PENDING, now⟩ := by
      cases hco
      rfl
    subst ho
    refine ⟨?_, hnodup⟩
    intro hnil
    exact hlen (by rw [List.length_eq_zero]; exact hnil)

/-- Witness for the amended C6: a concrete create plus one confirm keeps the
invariant, through `order_invariant_preserved`. -/
theorem order_invariant_preserved_witness :
    (sampleItems2.map OrderItem.productId).Nodup ∧
    Order.create sampleId 0 sampleEmail sampleItems2 = .ok (sampleOrder .PENDING) ∧
    ((sampleOrder .PENDING).runActions [.confirm]).invariantHolds :=
  ⟨by decide, by decide,
    order_invariant_preserved sampleId 0 sampleEmail sampleItems2 (by decide)
      (sampleOrder .PENDING) (by decide) [.confirm]⟩

/-- Witness for C10: `ship()` on a PENDING order throws and the order is
unchanged, through `mutators_atomic_on_error`. -/
theorem mutators_atomic_on_error_witness :
    ((sampleOrder .PENDING).applyAction .ship).1.isSome = true ∧
    ((sampleOrder .PENDING).applyAction .ship).2 = sampleOrder .PENDING :=
  ⟨by decide, (mutators_atomic_on_error).1 (sampleOrder .PENDING) .ship (by decide)⟩

/-- On a data-model-conformant item, `multiply` produces a line total in the
unit price's currency, with a non-negative amount. -/
theorem multiply_ok (it : OrderItem) (h : validItem it) :
    ∃ p, it.unitPrice.multiply it.quantity = .ok p ∧
      p.currency = it.unitPrice.currency ∧ 0 ≤ p.amount := by
  obtain ⟨hden, hq, hamt⟩ := h
  unfold Price.multiply
  rw [if_neg (by rintro (h1 | h2); exacts [h1 hden, absurd h2 (not_lt.mpr hq)])]
  rw [price_create_finite_nonneg _ (mul_nonneg hamt hq)]
  exact ⟨_, rfl, rfl, price_create_amount_nonneg _ (mul_nonneg hamt hq)⟩

/-- Adding two same-currency, non-negative prices succeeds and stays in that
currency with a non-negative amount. -/
theorem add_ok (p q : Price) (hc : p.currency = q.currency)
    (hp : 0 ≤ p.amount) (hq : 0 ≤ q.amount) :
    ∃ r, p.add q = .ok r ∧ r.currency = p.currency ∧ 0 ≤ r.amount := by
  unfold Price.add
  rw [if_neg (by simpa using hc)]
  rw [price_create_finite_nonneg _ (add_nonneg hp hq)]
  exact ⟨_, rfl, rfl, price_create_amount_nonneg _ (add_nonneg hp hq)⟩

/-- Adding prices of different currencies throws the CurrencyMatch
BusinessRuleViolationError. -/
theorem add_mixed (p q : Price) (hc : p.currency ≠ q.currency) :
    p.add q = .error currencyMismatchError := by
  unfold Price.add
  rw [if_pos hc]
  rfl

/-- Folding the loop body over items that all share the accumulator's
currency succeeds and stays in that currency. -/
theorem fold_total_ok (rest : List OrderItem) (c0 : Currency) :
    ∀ acc : Price, acc.currency = c0 → 0 ≤ acc.amount →
    (∀ it ∈ rest, validItem it) →
    (∀ it ∈ rest, it.unitPrice.currency = c0) →
    ∃ r, rest.foldlM totalStep acc = .ok r ∧ r.currency = c0 ∧ 0 ≤ r.amount := by
  induction rest with
  | nil => exact fun acc h1 h2 _ _ => ⟨acc, rfl, h1, h2⟩
  | cons it rest ih =>
      intro acc h1 h2 hv hc
      obtain ⟨p, hp, hpc, hpa⟩ := multiply_ok it (hv it (.head _))
      obtain ⟨r, hadd, hrc, hra⟩ := add_ok acc p
        (by rw [h1, hpc, hc it (.head _)]) h2 hpa
      have hstep : totalStep acc it = .ok r := by
        unfold totalStep
        rw [hp]
        exact hadd
      obtain ⟨r2, hr2, hr2c, hr2a⟩ := ih r (hrc.trans h1) hra
        (fun x hx => hv x (.tail _ hx)) (fun x hx => hc x (.tail _ hx))
      refine ⟨r2, ?_, hr2c, hr2a⟩
      rw [List.foldlM_cons, hstep]
      exact hr2

/-- Folding the loop body over items one of which leaves the accumulator's
currency throws the CurrencyMatch BusinessRuleViolationError. -/
theorem fold_total_mixed (rest : List OrderItem) (c0 : Currency) :
    ∀ acc : Price, acc.currency = c0 → 0 ≤ acc.amount →
    (∀ it ∈ rest, validItem it) →
    (∃ it ∈ rest, it.unitPrice.currency ≠ c0) →
    rest.foldlM totalStep acc = .error currencyMismatchError := by
  induction rest with
  | nil =>
      rintro acc _ _ _ ⟨it, hmem, _⟩
      cases hmem
  | cons it rest ih =>
      rintro acc h1 h2 hv ⟨w, hw, hwc⟩
      obtain ⟨p, hp, hpc, hpa⟩ := multiply_ok it (hv it (.head _))
      by_cases hcur : it.unitPrice.currency = c0
      · obtain ⟨r, hadd, hrc, hra⟩ := add_ok acc p (by rw [h1, hpc, hcur]) h2 hpa
        have hstep : totalStep acc it = .ok r := by
          unfold totalStep
          rw [hp]
          exact hadd
        rw [List.foldlM_cons, hstep]
        show rest.foldlM totalStep r = .error currencyMismatchError
        rcases List.mem_cons.mp hw with hweq | hwmem
        · exact absurd (hweq ▸ hcur) hwc
        · exact ih r (hrc.trans h1) hra (fun x hx => hv x (.tail _ hx)) ⟨w, hwmem, hwc⟩
      · have hstep : totalStep acc it = .error currencyMismatchError := by
          unfold totalStep
          rw [hp]
          show acc.add p = .error currencyMismatchError
          exact add_mixed acc p (by rw [h1, hpc]; exact fun hh => hcur hh.symm)
        rw [List.foldlM_cons, hstep]
        rfl

/-- C3: calculateTotal is the left-to-right fold seeded with the first
item's line total and extended by `add`; on data-model-conformant items it
throws the CurrencyMatch BusinessRuleViolationError whenever some item's
currency differs from the first item's; an empty item list yields a zero
Price in the default currency USD; the spec's two-item EUR example totals
40 EUR. -/
theorem calculateTotal_spec :
    (∀ (o : Order) (first : OrderItem) (rest : List OrderItem),
      o._items = first :: rest →
      o.calculateTotal = do
        let init ← first.unitPrice.multiply first.quantity
        rest.foldlM totalStep init) ∧
    (∀ o : Order, o._items = [] → o.calculateTotal = .ok ⟨0, .USD⟩) ∧
    (∀ (o : Order) (first : OrderItem) (rest : List OrderItem),
      o._items = first :: rest →
      (∀ it ∈ o._items, validItem it) →
      (∃ it ∈ o._items, it.unitPrice.currency ≠ first.unitPrice.currency) →
      o.calculateTotal = .error currencyMismatchError) ∧
    (sampleOrder .PENDING).calculateTotal = .ok ⟨40, .EUR⟩ := by
  have hfold : ∀ (o : Order) (first : OrderItem) (rest : List OrderItem),
      o._items = first :: rest →
      o.calculateTotal = (do
        let init ← first.unitPrice.multiply first.quantity
        rest.foldlM totalStep init) := by
    intro o first rest h
    unfold Order.calculateTotal
    rw [h]
  refine ⟨hfold, ?_, ?_, ?_⟩
  · intro o h
    unfold Order.calculateTotal
    rw [h]
    have h0 : ((0 : ℚ)) = ((0 : ℕ) : ℚ) := by norm_num
    rw [show (JSNumber.finite 0) = (JSNumber.finite ((0 : ℕ) : ℚ)) by norm_num]
    rw [price_create_natCast 0 .USD]
    norm_num
  · intro o first rest h hv hmix
    rw [hfold o first rest h]
    rw [h] at hv hmix
    obtain ⟨p, hp, hpc, hpa⟩ := multiply_ok first (hv first (.head _))
    rw [hp]
    show rest.foldlM totalStep p = .error currencyMismatchError
    obtain ⟨w, hw, hwc⟩ := hmix
    rcases List.mem_cons.mp hw with hweq | hwmem
    · exact absurd (hweq ▸ rfl) hwc
    · exact fold_total_mixed rest first.unitPrice.currency p hpc hpa
        (fun x hx => hv x (.tail _ hx)) ⟨w, hwmem, hwc⟩
  · rw [hfold (sampleOrder .PENDING) ⟨"p1", "A", 2, ⟨10, .EUR⟩⟩
      [⟨"p2", "B", 1, ⟨20, .EUR⟩⟩] rfl]
    have hm1 : (Price.mk 10 .EUR).multiply 2 = .ok ⟨20, .EUR⟩ := by
      unfold Price.multiply
      rw [if_neg (by norm_num)]
      rw [show ((10 : ℚ) * 2) = ((20 : ℕ) : ℚ) by norm_num]
      rw [price_create_natCast 20 .EUR]
      norm_num
    have hm2 : (Price.mk 20 .EUR).multiply 1 = .ok ⟨20, .EUR⟩ := by
      unfold Price.multiply
      rw [if_neg (by norm_num)]
      rw [show ((20 : ℚ) * 1) = ((20 : ℕ) : ℚ) by norm_num]
      rw [price_create_natCast 20 .EUR]
      norm_num
    have hadd : (Price.mk 20 .EUR).add ⟨20, .EUR⟩ = .ok ⟨40, .EUR⟩ := by
      unfold Price.add
      rw [if_neg (by simp)]
      rw [show ((20 : ℚ) + 20) = ((40 : ℕ) : ℚ) by norm_num]
      rw [price_create_natCast 40 .EUR]
      norm_num
    rw [hm1]
    show [OrderItem.mk "p2" "B" 1 ⟨20, .EUR⟩].foldlM totalStep ⟨20, .EUR⟩ =
      .ok ⟨40, .EUR⟩
    rw [List.foldlM_cons]
    have hstep : totalStep ⟨20, .EUR⟩ ⟨"p2", "B", 1, ⟨20, .EUR⟩⟩ = .ok ⟨40, .EUR⟩ := by
      unfold totalStep
      rw [hm2]
      exact hadd
    rw [hstep]
    rfl

/-- Witness for C3: the empty-items branch at a concrete reconstituted
order, through `calculateTotal_spec`. -/
theorem calculateTotal_spec_witness :
    emptyOrder._items = [] ∧ emptyOrder.calculateTotal = .ok ⟨0, .USD⟩ :=
  ⟨rfl, calculateTotal_spec.2.1 emptyOrder rfl⟩

/-- C5 counterexample: the spread copies are shallow.  Create an order from
a one-item list, read the `items` getter's returned array, and overwrite —
through the item reference that array exposes — the shared OrderItem object:
the Order's own observable items change. -/
theorem items_defensive_copy_cex :
    ∃ h1 o, HeapModel.HOrder.create hp0 sampleId 0 sampleEmail 0 = .ok (h1, o) ∧
      ((HeapModel.HOrder.itemsGet h1 o).1.arrAt
          (HeapModel.HOrder.itemsGet h1 o).2).head? = some 0 ∧
      HeapModel.HOrder.observedItems
          ((HeapModel.HOrder.itemsGet h1 o).1.setItem 0 mutRecord) o ≠
        HeapModel.HOrder.observedItems (HeapModel.HOrder.itemsGet h1 o).1 o :=
  ⟨_, _, rfl, rfl, by decide⟩

/-- C5 amended (array level): the array object itself is defensively
copied — structurally mutating the array the `items` getter returns, or the
array that was passed to `create`, never changes the Order's observable
items; only writes through the shared item references do (see the
counterexample). -/
theorem items_defensive_copy_arrays (h : HeapModel.JSHeap)
    (o : HeapModel.HOrder) (hwf : o.itemsArr < h.nextArr) :
    ((HeapModel.HOrder.itemsGet h o).2 ≠ o.itemsArr ∧
      ∀ xs, HeapModel.HOrder.observedItems
          ((HeapModel.HOrder.itemsGet h o).1.setArr
            (HeapModel.HOrder.itemsGet h o).2 xs) o =
        HeapModel.HOrder.observedItems h o) ∧
    (∀ (gid : OrderId) (now : ℕ) (em : Email) (argArr : HeapModel.ArrRef),
      argArr < h.nextArr →
      ∀ (h1 : HeapModel.JSHeap) (o1 : HeapModel.HOrder),
      HeapModel.HOrder.create h gid now em argArr = .ok (h1, o1) →
      ∀ xs, HeapModel.HOrder.observedItems (h1.setArr argArr xs) o1 =
        HeapModel.HOrder.observedItems h1 o1) := by
  have hne : h.nextArr ≠ o.itemsArr := Nat.ne_of_gt hwf
  constructor
  · constructor
    · exact hne
    · intro xs
      show ((HeapModel.JSHeap.setArr _ h.nextArr xs).arrAt o.itemsArr).map _ =
        (h.arrAt o.itemsArr).map h.itemAt
      simp only [HeapModel.JSHeap.setArr, HeapModel.HOrder.itemsGet,
        HeapModel.JSHeap.allocArr, HeapModel.HOrder.observedItems]
      rw [if_neg (fun hx => hne hx.symm), if_neg (fun hx => hne hx.symm)]
  · intro gid now em argArr harg h1 o1 hco xs
    unfold HeapModel.HOrder.create at hco
    split at hco
    · exact absurd hco (by simp)
    · simp only [HeapModel.JSHeap.allocArr, Except.ok.injEq, Prod.mk.injEq] at hco
      obtain ⟨hh1, ho1⟩ := hco
      have hargne : argArr ≠ h.nextArr := Nat.ne_of_lt harg
      subst hh1
      subst ho1
      show ((HeapModel.JSHeap.setArr _ argArr xs).arrAt h.nextArr).map _ =
        ((HeapModel.JSHeap.allocArr h (h.arrAt argArr)).1.arrAt h.nextArr).map _
      simp only [HeapModel.JSHeap.setArr, HeapModel.JSHeap.allocArr]
      rw [if_neg (fun hx => hargne hx.symm)]

/-- Witness for the amended C5: with the one-item heap `hp0`, mutating the
getter's returned array leaves the order's observable items unchanged,
through `items_defensive_copy_arrays`. -/
theorem items_defensive_copy_arrays_witness :
    hOrder0.itemsArr < hp0.nextArr ∧
    ((HeapModel.HOrder.itemsGet hp0 hOrder0).2 ≠ hOrder0.itemsArr ∧
      ∀ xs, HeapModel.HOrder.observedItems
          ((HeapModel.HOrder.itemsGet hp0 hOrder0).1.setArr
            (HeapModel.HOrder.itemsGet hp0 hOrder0).2 xs) hOrder0 =
        HeapModel.HOrder.observedItems hp0 hOrder0) :=
  ⟨by decide, (items_defensive_copy_arrays hp0 hOrder0 (by decide)).1⟩

end CleanArch
